import Mathlib

/-!
Verification of the tri-state boolean propagation engine in
`indicators.go` (package `indicators`).

The Go code keeps a pointer graph of `IndicatorNode` values and mutates the
nodes in place; here the graph is an arena: nodes are addressed by a `Nat`
index and the graph is a total map from index to node.  Pointer mutation
becomes functional update of the map.  The recursive walk up the parent
links (which terminates in Go because the graph is acyclic) is bounded here
by an explicit fuel argument; fuel exhaustion, like the out-of-range index
access `node.Children[0]` on an AND node with no children, is modelled by
an `Option` result of `none`.
-/

set_option maxHeartbeats 2000000

namespace Indicators

/-- Tri-state boolean (`truth` in indicators.go): the truth of a boolean
operator is unknown until enough of the state of its children is known. -/
inductive Truth where
  | truthUnknown
  | truthTrue
  | truthFalse
deriving DecidableEq, Repr

/-- `Pattern` (indicators.go): the pattern to match on.  The Go field
`Match` is rendered `matchKind` because `match` is a Lean keyword. -/
structure Pattern where
  type : String
  value : String
  value2 : String := ""
  matchKind : String := ""
deriving DecidableEq, Repr

/-- The fields of `dt.Indicator` that the engine reads or writes:
`Id`, `Type` and `Value`. -/
structure Indicator where
  id : String
  type : String
  value : String
deriving DecidableEq, Repr

/-- Nodes live in an arena and are addressed by index; the Go pointers
`*IndicatorNode` become indices. -/
abbrev NodeId := Nat

/-- `IndicatorNode` (indicators.go): the structural fields set at load time
together with the runtime state `truth` / `eventID`. -/
structure IndicatorNode where
  id : String := ""
  operator : String := ""
  indicator : Option Indicator := none
  parents : List NodeId := []
  children : List NodeId := []
  siblingNots : List Int := []
  pattern : Option Pattern := none
  useOriginalIndicatorValue : Bool := false
  truth : Truth := .truthUnknown
  eventID : Int := 0
deriving DecidableEq, Repr

/-- The pointer graph as an arena: a total map from node index to node. -/
abbrev Graph := NodeId → IndicatorNode

/-- Write one node of the arena (a Go in-place pointer mutation). -/
def updateNode (g : Graph) (i : NodeId) (n : IndicatorNode) : Graph :=
  fun j => if j = i then n else g j

/-- Lines 122-129 of `setTruth`: if the node's event ID does not match the
event in progress its state is old, so the truth is reset to unknown, the
new event is remembered, and an operator node's propagated pattern is
dropped. -/
def lazyReset (n : IndicatorNode) (evID : Int) : IndicatorNode :=
  if n.eventID ≠ evID then
    { n with truth := .truthUnknown
             eventID := evID
             pattern := if n.operator ≠ "" then none else n.pattern }
  else n

/-- Lines 136-177 of `setTruth`: the operator switch.  Returns the truth
the node is to be set to together with the (possibly adopted) pattern, or
`none` for the out-of-range access `node.Children[0]` on an AND node with
no children and no pattern of its own.  `n` is the node after the lazy
reset; `g` is the arena after that reset has been written back (the AND
case reads the live state of the children). -/
def evalOperator (g : Graph) (n : IndicatorNode) (childTruth : Truth)
    (childPattern : Option Pattern) : Option (Truth × Option Pattern) :=
  if n.operator = "" then
    -- leaf node: the leaf resolution is the incoming value
    some (childTruth, n.pattern)
  else if n.operator = "OR" then
    if childTruth = .truthTrue then
      some (.truthTrue, if n.pattern = none then childPattern else n.pattern)
    else
      some (.truthUnknown, n.pattern)
  else if n.operator = "AND" then
    if childTruth = .truthFalse then
      some (.truthFalse, n.pattern)
    else
      if n.children.all fun c => (g c).eventID == n.eventID && (g c).truth == .truthTrue then
        if n.pattern = none then
          match n.children with
          | [] => none
          | c :: _ => some (.truthTrue, (g c).pattern)
        else
          some (.truthTrue, n.pattern)
      else
        some (.truthUnknown, n.pattern)
  else if n.operator = "NOT" then
    if childTruth = .truthTrue then
      some (.truthFalse, n.pattern)
    else
      some (.truthTrue, n.pattern)
  else
    -- unrecognised operator: logged as a warning, node left unknown
    some (.truthUnknown, n.pattern)

/-- Lines 188-201 of `setTruth`: the component of the dot-split pattern
type that is copied into the indicator: `parts[1]` when there is more than
one part, else `parts[0]` (`String.splitOn` never returns `[]`; the empty
case is unreachable). -/
def secondPart (parts : List String) : String :=
  match parts with
  | _ :: second :: _ => second
  | [single] => single
  | [] => ""

/-- Lines 186-206 of `setTruth`: when a node with an indicator template
resolves true, the template's Type/Value are overwritten from the node's
pattern unless `useOriginalIndicatorValue` is set.  A two-part dotted
pattern type yields its second component, a one-part type is used as is
(more than two parts is only a logged warning: the second component is
still taken). -/
def substituteIndicator (n : IndicatorNode) : IndicatorNode :=
  match n.indicator, n.pattern with
  | some ind, some pat =>
    if n.useOriginalIndicatorValue then n
    else
      let newInd : Indicator :=
        { ind with type := secondPart (pat.type.splitOn "."), value := pat.value }
      { n with indicator := some newInd }
  | _, _ => n

/-- The outcome of one touch of `setTruth` on one node: the node's updated
state, the indicator it emitted (if any), the sibling negations it
contributed, and whether the walk continues into the parents. -/
structure TouchResult where
  node : IndicatorNode
  emitted : List Indicator
  nots : List Int
  recurse : Bool
deriving DecidableEq, Repr

/-- Lines 179-208 of `setTruth`: if the operator switch produced a known
truth, write it into the node and, when the node became true and carries an
indicator template, perform the value substitution and emit the template.
`recurse` records whether lines 210-220 (the parent walk) run. -/
def applyTruth (n : IndicatorNode) (setNodeTo : Truth) (newPat : Option Pattern) :
    TouchResult :=
  if setNodeTo ≠ .truthUnknown then
    let node : IndicatorNode := { n with truth := setNodeTo, pattern := newPat }
    if setNodeTo = .truthTrue then
      -- lines 185-208: value substitution, then emit the template if present
      let node := substituteIndicator node
      { node := node, emitted := node.indicator.toList, nots := n.siblingNots, recurse := true }
    else
      { node := node, emitted := [], nots := n.siblingNots, recurse := true }
  else
    { node := n, emitted := [], nots := n.siblingNots, recurse := false }

/-- The non-recursive body of `setTruth` (lines 112-209) applied to the
node `nid`: the unknown-child early return, the lazy reset, the
already-resolved guard, the operator switch, and the truth write with
indicator emission.  `none` models the `Children[0]` panic. -/
def touch (g : Graph) (nid : NodeId) (childTruth : Truth)
    (childPattern : Option Pattern) (evID : Int) : Option TouchResult :=
  if childTruth = .truthUnknown then
    -- line 118: should not be called with unknown truth; returns nil, nil
    some { node := g nid, emitted := [], nots := [], recurse := false }
  else
    let node := lazyReset (g nid) evID
    if node.truth ≠ .truthUnknown then
      -- line 135: truth already known for this event, nothing to do
      some { node := node, emitted := [], nots := node.siblingNots, recurse := false }
    else
      (evalOperator (updateNode g nid node) node childTruth childPattern).map
        fun p => applyTruth node p.1 p.2

mutual

/-- `setTruth` (indicators.go lines 112-224): apply one child-truth signal
to the node, then recurse into its parents passing the node's new truth and
pattern.  Fuel bounds the recursion (the Go original relies on the graph
being acyclic); it is also spent on each parent-list step. -/
def setTruth : Nat → Graph → NodeId → Truth → Option Pattern → Int →
    Option (Graph × List Indicator × List Int)
  | 0, _, _, _, _, _ => none
  | fuel + 1, g, nid, childTruth, childPattern, evID =>
    match touch g nid childTruth childPattern evID with
    | none => none
    | some r =>
      let g1 := updateNode g nid r.node
      if r.recurse then
        match setTruthOnParents fuel g1 r.node.parents r.node.truth r.node.pattern evID with
        | none => none
        | some (g2, inds, nots) => some (g2, r.emitted ++ inds, r.nots ++ nots)
      else
        some (g1, r.emitted, r.nots)

/-- Lines 211-220 of `setTruth`: the loop over the parents, threading the
arena and accumulating emitted indicators and discovered negations. -/
def setTruthOnParents : Nat → Graph → List NodeId → Truth → Option Pattern → Int →
    Option (Graph × List Indicator × List Int)
  | _, g, [], _, _, _ => some (g, [], [])
  | 0, _, _ :: _, _, _, _ => none
  | fuel + 1, g, p :: rest, t, pat, evID =>
    match setTruth fuel g p t pat evID with
    | none => none
    | some (g1, inds1, nots1) =>
      match setTruthOnParents fuel g1 rest t pat evID with
      | none => none
      | some (g2, inds2, nots2) => some (g2, inds1 ++ inds2, nots1 ++ nots2)

end

/-- `Fire` (indicators.go line 90): called when the node becomes true; the
sentinel `trueNode` carries truth `truthTrue` and no pattern. -/
def Fire (fuel : Nat) (g : Graph) (nid : NodeId) (evID : Int) :
    Option (Graph × List Indicator × List Int) :=
  setTruth fuel g nid .truthTrue none evID

/-- `ResolveNot` (indicators.go line 96): called to resolve a NOT node once
its child can be assumed false; the sentinel `falseNode` carries truth
`truthFalse` and no pattern. -/
def ResolveNot (fuel : Nat) (g : Graph) (nid : NodeId) (evID : Int) :
    Option (Graph × List Indicator × List Int) :=
  setTruth fuel g nid .truthFalse none evID

/-! ### Concrete graphs used to instantiate the theorems -/

/-- Short constructor for a pattern with only a type and a value, the shape
of the patterns in the IOC definition files. -/
def mkPat (t v : String) : Pattern := { type := t, value := v }

/-- A small arena exercising every operator: an AND (node 0) and an OR
(node 3) over the two leaves 1 and 2, a NOT (node 4) over leaf 1, a node
with an unrecognised operator (node 5), indicator-bearing leaves 6-8, and
an already-resolved node 9. -/
def exGraph : Graph := fun i =>
  if i = 0 then
    { operator := "AND", children := [1, 2], parents := [], siblingNots := [9],
      indicator := some { id := "ind0", type := "t0", value := "v0" } }
  else if i = 1 then
    { pattern := some (mkPat "src.ipv4" "1.2.3.4"), parents := [0], siblingNots := [5] }
  else if i = 2 then
    { pattern := some (mkPat "dest.port" "80"), parents := [0] }
  else if i = 3 then
    { operator := "OR", children := [1, 2], parents := [] }
  else if i = 4 then
    { operator := "NOT", children := [1], parents := [] }
  else if i = 5 then
    { operator := "XOR", children := [1], parents := [] }
  else if i = 6 then
    { pattern := some (mkPat "src.ipv4" "1.2.3.4"), parents := [],
      indicator := some { id := "ind6", type := "t6", value := "v6" } }
  else if i = 7 then
    { pattern := some (mkPat "src.ipv4" "1.2.3.4"), parents := [],
      indicator := some { id := "ind7", type := "t7", value := "v7" },
      useOriginalIndicatorValue := true }
  else if i = 8 then
    { pattern := none, parents := [],
      indicator := some { id := "ind8", type := "t8", value := "v8" } }
  else if i = 9 then
    { pattern := some (mkPat "x" "y"), parents := [], siblingNots := [4, 5],
      indicator := some { id := "ind9", type := "t9", value := "v9" },
      truth := .truthTrue, eventID := 3 }
  else {}

/-- `exGraph` after both leaves 1 and 2 have been resolved True for
event 1, the situation in which the AND node 0 resolves True. -/
def exGraphResolved : Graph := fun i =>
  if i = 1 then
    { pattern := some (mkPat "src.ipv4" "1.2.3.4"), parents := [0], siblingNots := [5],
      truth := .truthTrue, eventID := 1 }
  else if i = 2 then
    { pattern := some (mkPat "dest.port" "80"), parents := [0],
      truth := .truthTrue, eventID := 1 }
  else exGraph i

/-- Equality of the load-time structural fields of a node: id, Operator,
Children, Parents, SiblingNots and the useOriginalIndicatorValue flag.
The remaining fields (truth, eventID, pattern, indicator) are exactly the
ones `setTruth` writes. -/
def StructEq (a b : IndicatorNode) : Prop :=
  a.operator = b.operator ∧ a.children = b.children ∧ a.parents = b.parents
  ∧ a.siblingNots = b.siblingNots
  ∧ a.useOriginalIndicatorValue = b.useOriginalIndicatorValue ∧ a.id = b.id

/-- Pointwise structural equality of two arenas. -/
def GraphStructEq (a b : Graph) : Prop := ∀ j, StructEq (a j) (b j)

/-! ### Helper lemmas about the pieces of `setTruth` -/

@[simp]
theorem lazyReset_operator (n : IndicatorNode) (ev : Int) :
    (lazyReset n ev).operator = n.operator := by
  unfold lazyReset; split <;> rfl

@[simp]
theorem lazyReset_children (n : IndicatorNode) (ev : Int) :
    (lazyReset n ev).children = n.children := by
  unfold lazyReset; split <;> rfl

@[simp]
theorem lazyReset_parents (n : IndicatorNode) (ev : Int) :
    (lazyReset n ev).parents = n.parents := by
  unfold lazyReset; split <;> rfl

@[simp]
theorem lazyReset_siblingNots (n : IndicatorNode) (ev : Int) :
    (lazyReset n ev).siblingNots = n.siblingNots := by
  unfold lazyReset; split <;> rfl

@[simp]
theorem lazyReset_indicator (n : IndicatorNode) (ev : Int) :
    (lazyReset n ev).indicator = n.indicator := by
  unfold lazyReset; split <;> rfl

@[simp]
theorem lazyReset_useOriginal (n : IndicatorNode) (ev : Int) :
    (lazyReset n ev).useOriginalIndicatorValue = n.useOriginalIndicatorValue := by
  unfold lazyReset; split <;> rfl

@[simp]
theorem lazyReset_eventID (n : IndicatorNode) (ev : Int) :
    (lazyReset n ev).eventID = ev := by
  unfold lazyReset; split
  · rfl
  · next h => simpa using h

theorem lazyReset_truth (n : IndicatorNode) (ev : Int) :
    (lazyReset n ev).truth = if n.eventID = ev then n.truth else .truthUnknown := by
  unfold lazyReset
  rcases eq_or_ne n.eventID ev with h | h <;> simp [h]

theorem lazyReset_pattern (n : IndicatorNode) (ev : Int) :
    (lazyReset n ev).pattern =
      if n.eventID = ev then n.pattern
      else if n.operator = "" then n.pattern else none := by
  unfold lazyReset
  rcases eq_or_ne n.eventID ev with h | h <;>
    rcases eq_or_ne n.operator "" with h' | h' <;> simp [h, h']

theorem lazyReset_of_eq (n : IndicatorNode) (ev : Int) (h : n.eventID = ev) :
    lazyReset n ev = n := by
  unfold lazyReset; simp [h]

theorem substituteIndicator_truth (n : IndicatorNode) :
    (substituteIndicator n).truth = n.truth := by
  unfold substituteIndicator
  cases hi : n.indicator <;> cases hp : n.pattern <;> try rfl
  all_goals cases hu : n.useOriginalIndicatorValue <;> simp [hu, hp]

theorem substituteIndicator_pattern (n : IndicatorNode) :
    (substituteIndicator n).pattern = n.pattern := by
  unfold substituteIndicator
  cases hi : n.indicator <;> cases hp : n.pattern <;> try rfl
  all_goals cases hu : n.useOriginalIndicatorValue <;> simp [hu, hp]

theorem substituteIndicator_operator (n : IndicatorNode) :
    (substituteIndicator n).operator = n.operator := by
  unfold substituteIndicator
  cases hi : n.indicator <;> cases hp : n.pattern <;> try rfl
  all_goals cases hu : n.useOriginalIndicatorValue <;> simp [hu, hp]

theorem substituteIndicator_children (n : IndicatorNode) :
    (substituteIndicator n).children = n.children := by
  unfold substituteIndicator
  cases hi : n.indicator <;> cases hp : n.pattern <;> try rfl
  all_goals cases hu : n.useOriginalIndicatorValue <;> simp [hu, hp]

theorem substituteIndicator_parents (n : IndicatorNode) :
    (substituteIndicator n).parents = n.parents := by
  unfold substituteIndicator
  cases hi : n.indicator <;> cases hp : n.pattern <;> try rfl
  all_goals cases hu : n.useOriginalIndicatorValue <;> simp [hu, hp]

theorem substituteIndicator_siblingNots (n : IndicatorNode) :
    (substituteIndicator n).siblingNots = n.siblingNots := by
  unfold substituteIndicator
  cases hi : n.indicator <;> cases hp : n.pattern <;> try rfl
  all_goals cases hu : n.useOriginalIndicatorValue <;> simp [hu, hp]

theorem substituteIndicator_useOriginal (n : IndicatorNode) :
    (substituteIndicator n).useOriginalIndicatorValue = n.useOriginalIndicatorValue := by
  unfold substituteIndicator
  cases hi : n.indicator <;> cases hp : n.pattern <;> try rfl
  all_goals cases hu : n.useOriginalIndicatorValue <;> simp [hu, hp]

theorem applyTruth_unknown (n : IndicatorNode) (np : Option Pattern) :
    applyTruth n .truthUnknown np =
      { node := n, emitted := [], nots := n.siblingNots, recurse := false } := rfl

theorem applyTruth_false (n : IndicatorNode) (np : Option Pattern) :
    applyTruth n .truthFalse np =
      { node := { n with truth := .truthFalse, pattern := np }, emitted := [],
        nots := n.siblingNots, recurse := true } := rfl

theorem applyTruth_true (n : IndicatorNode) (np : Option Pattern) :
    applyTruth n .truthTrue np =
      { node := substituteIndicator { n with truth := .truthTrue, pattern := np },
        emitted := (substituteIndicator { n with truth := .truthTrue, pattern := np }).indicator.toList,
        nots := n.siblingNots, recurse := true } := rfl

theorem touch_resolved_eq (g : Graph) (nid : NodeId) (ct : Truth) (cp : Option Pattern)
    (ev : Int) (hct : ct ≠ .truthUnknown)
    (hres : (lazyReset (g nid) ev).truth ≠ .truthUnknown) :
    touch g nid ct cp ev =
      some { node := lazyReset (g nid) ev, emitted := [],
             nots := (g nid).siblingNots, recurse := false } := by
  unfold touch
  simp [hct, hres]

theorem touch_unres_eq (g : Graph) (nid : NodeId) (ct : Truth) (cp : Option Pattern)
    (ev : Int) (hct : ct ≠ .truthUnknown)
    (hunres : (lazyReset (g nid) ev).truth = .truthUnknown) :
    touch g nid ct cp ev =
      (evalOperator (updateNode g nid (lazyReset (g nid) ev)) (lazyReset (g nid) ev) ct cp).map
        fun p => applyTruth (lazyReset (g nid) ev) p.1 p.2 := by
  unfold touch
  simp [hct, hunres]

theorem evalOperator_leaf (g : Graph) (n : IndicatorNode) (ct : Truth) (cp : Option Pattern)
    (h : n.operator = "") :
    evalOperator g n ct cp = some (ct, n.pattern) := by
  unfold evalOperator
  simp [h]

theorem evalOperator_or (g : Graph) (n : IndicatorNode) (ct : Truth) (cp : Option Pattern)
    (h : n.operator = "OR") :
    evalOperator g n ct cp =
      if ct = .truthTrue then
        some (.truthTrue, if n.pattern = none then cp else n.pattern)
      else
        some (.truthUnknown, n.pattern) := by
  unfold evalOperator
  simp [h]

theorem evalOperator_and (g : Graph) (n : IndicatorNode) (ct : Truth) (cp : Option Pattern)
    (h : n.operator = "AND") :
    evalOperator g n ct cp =
      if ct = .truthFalse then
        some (.truthFalse, n.pattern)
      else
        if n.children.all fun c => (g c).eventID == n.eventID && (g c).truth == .truthTrue then
          if n.pattern = none then
            match n.children with
            | [] => none
            | c :: _ => some (.truthTrue, (g c).pattern)
          else
            some (.truthTrue, n.pattern)
        else
          some (.truthUnknown, n.pattern) := by
  unfold evalOperator
  simp [h]

theorem evalOperator_not (g : Graph) (n : IndicatorNode) (ct : Truth) (cp : Option Pattern)
    (h : n.operator = "NOT") :
    evalOperator g n ct cp =
      if ct = .truthTrue then
        some (.truthFalse, n.pattern)
      else
        some (.truthTrue, n.pattern) := by
  unfold evalOperator
  simp [h]

theorem evalOperator_unrecognised (g : Graph) (n : IndicatorNode) (ct : Truth)
    (cp : Option Pattern) (h0 : n.operator ≠ "") (h1 : n.operator ≠ "OR")
    (h2 : n.operator ≠ "AND") (h3 : n.operator ≠ "NOT") :
    evalOperator g n ct cp = some (.truthUnknown, n.pattern) := by
  unfold evalOperator
  simp [h0, h1, h2, h3]

@[simp]
theorem updateNode_self (g : Graph) (i : NodeId) (n : IndicatorNode) :
    updateNode g i n i = n := by
  simp [updateNode]

theorem updateNode_ne (g : Graph) (i : NodeId) (n : IndicatorNode) (j : NodeId)
    (h : j ≠ i) : updateNode g i n j = g j := by
  simp [updateNode, h]

/-! ### The claims -/

/-- C1: for an AND node touched by a propagation call for event `ev` while
its truth for `ev` is still unresolved: an incoming child truth of False
sets the node's truth to False immediately, regardless of the other
children; an incoming True sets it to True exactly when every child is
recorded True for event generation `ev`, adopting the first child's
pattern when the node has none of its own; otherwise the truth remains
Unknown. -/
theorem and_node_touch (g : Graph) (nid : NodeId) (cp : Option Pattern) (ev : Int)
    (hop : (g nid).operator = "AND")
    (hne : (g nid).children ≠ [])
    (hself : nid ∉ (g nid).children)
    (hunres : (lazyReset (g nid) ev).truth = .truthUnknown) :
    (((touch g nid .truthFalse cp ev).map fun r => r.node.truth) = some .truthFalse)
    ∧
    ((∀ c ∈ (g nid).children, (g c).eventID = ev ∧ (g c).truth = .truthTrue) →
      ((touch g nid .truthTrue cp ev).map fun r => (r.node.truth, r.node.pattern)) =
        some (.truthTrue,
          if (lazyReset (g nid) ev).pattern = none then
            (g ((g nid).children.headD 0)).pattern
          else (lazyReset (g nid) ev).pattern))
    ∧
    ((¬ ∀ c ∈ (g nid).children, (g c).eventID = ev ∧ (g c).truth = .truthTrue) →
      ((touch g nid .truthTrue cp ev).map fun r => r.node.truth) = some .truthUnknown) := by
  have hop' : (lazyReset (g nid) ev).operator = "AND" := by
    rw [lazyReset_operator]; exact hop
  have hchildren : (lazyReset (g nid) ev).children = (g nid).children :=
    lazyReset_children _ _
  have hgc : ∀ c ∈ (g nid).children,
      updateNode g nid (lazyReset (g nid) ev) c = g c := by
    intro c hc
    exact updateNode_ne _ _ _ _ (fun h => hself (h ▸ hc))
  have hall : ∀ b : Graph, (∀ c ∈ (g nid).children, b c = g c) →
      (((lazyReset (g nid) ev).children.all fun c =>
          (b c).eventID == (lazyReset (g nid) ev).eventID && (b c).truth == .truthTrue) = true
        ↔ (∀ c ∈ (g nid).children, (g c).eventID = ev ∧ (g c).truth = .truthTrue)) := by
    intro b hb
    rw [hchildren]
    simp only [List.all_eq_true, Bool.and_eq_true, beq_iff_eq, lazyReset_eventID]
    constructor
    · intro h c hc
      have := h c hc
      rwa [hb c hc] at this
    · intro h c hc
      have := h c hc
      rwa [← hb c hc] at this
  refine ⟨?_, ?_, ?_⟩
  · rw [touch_unres_eq g nid .truthFalse cp ev (by decide) hunres,
        evalOperator_and _ _ _ _ hop', if_pos rfl]
    simp [applyTruth_false]
  · intro hallc
    rw [touch_unres_eq g nid .truthTrue cp ev (by decide) hunres,
        evalOperator_and _ _ _ _ hop',
        if_neg (by decide : ¬(Truth.truthTrue = Truth.truthFalse)),
        if_pos ((hall _ hgc).mpr hallc)]
    rcases hp : (lazyReset (g nid) ev).pattern with _ | p
    · rcases hc : (g nid).children with _ | ⟨c, rest⟩
      · exact absurd hc hne
      · have hcmem : c ∈ (g nid).children := by rw [hc]; exact List.mem_cons_self _ _
        rw [if_pos rfl]
        simp only [hchildren, hc]
        rw [hgc c hcmem]
        simp [applyTruth_true, substituteIndicator_truth, substituteIndicator_pattern]
    · rw [if_neg (by simp : ¬(some p = none))]
      simp [applyTruth_true, substituteIndicator_truth, substituteIndicator_pattern, hp]
  · intro hnall
    rw [touch_unres_eq g nid .truthTrue cp ev (by decide) hunres,
        evalOperator_and _ _ _ _ hop',
        if_neg (by decide : ¬(Truth.truthTrue = Truth.truthFalse)),
        if_neg (fun h => hnall ((hall _ hgc).mp h))]
    simp [applyTruth_unknown, hunres]

/-- C1 witness: in `exGraphResolved`, the AND node 0 (children 1 and 2 both
True for event 1) resolves False on an incoming False and True on an
incoming True, adopting the first child's `src.ipv4` pattern. -/
theorem and_node_touch_witness :
    (((touch exGraphResolved 0 .truthFalse none 1).map fun r => r.node.truth) =
      some .truthFalse)
    ∧
    (((touch exGraphResolved 0 .truthTrue none 1).map fun r => (r.node.truth, r.node.pattern)) =
      some (.truthTrue,
        if (lazyReset (exGraphResolved 0) 1).pattern = none then
          (exGraphResolved ((exGraphResolved 0).children.headD 0)).pattern
        else (lazyReset (exGraphResolved 0) 1).pattern)) := by
  have h := and_node_touch exGraphResolved 0 none 1 (by decide) (by decide) (by decide)
    (by decide)
  exact ⟨h.1, h.2.1 (by decide)⟩

/-- C2: for an OR node touched by a propagation call while its truth for
`ev` is still unresolved: an incoming child truth of True sets the node's
truth to True, adopting the triggering child's pattern when the node has
none of its own; an incoming False never sets the truth to False — the
node remains Unknown. -/
theorem or_node_touch (g : Graph) (nid : NodeId) (cp : Option Pattern) (ev : Int)
    (hop : (g nid).operator = "OR")
    (hunres : (lazyReset (g nid) ev).truth = .truthUnknown) :
    (((touch g nid .truthTrue cp ev).map fun r => (r.node.truth, r.node.pattern)) =
      some (.truthTrue,
        if (lazyReset (g nid) ev).pattern = none then cp
        else (lazyReset (g nid) ev).pattern))
    ∧
    (((touch g nid .truthFalse cp ev).map fun r => r.node.truth) = some .truthUnknown) := by
  have hop' : (lazyReset (g nid) ev).operator = "OR" := by
    rw [lazyReset_operator]; exact hop
  constructor
  · rw [touch_unres_eq g nid .truthTrue cp ev (by decide) hunres,
        evalOperator_or _ _ _ _ hop', if_pos rfl]
    rcases hp : (lazyReset (g nid) ev).pattern with _ | p
    · rw [if_pos rfl]
      simp [applyTruth_true, substituteIndicator_truth, substituteIndicator_pattern]
    · rw [if_neg (by simp : ¬(some p = none))]
      simp [applyTruth_true, substituteIndicator_truth, substituteIndicator_pattern]
  · rw [touch_unres_eq g nid .truthFalse cp ev (by decide) hunres,
        evalOperator_or _ _ _ _ hop',
        if_neg (by decide : ¬(Truth.truthFalse = Truth.truthTrue))]
    simp [applyTruth_unknown, hunres]

/-- C2 witness: the OR node 3 of `exGraph`, touched for event 1 with a True
child carrying the `src.ipv4` pattern, resolves True and adopts that
pattern; touched with a False child it stays Unknown. -/
theorem or_node_touch_witness :
    (((touch exGraph 3 .truthTrue (some (mkPat "src.ipv4" "1.2.3.4")) 1).map
        fun r => (r.node.truth, r.node.pattern)) =
      some (.truthTrue,
        if (lazyReset (exGraph 3) 1).pattern = none then some (mkPat "src.ipv4" "1.2.3.4")
        else (lazyReset (exGraph 3) 1).pattern))
    ∧
    (((touch exGraph 3 .truthFalse (some (mkPat "src.ipv4" "1.2.3.4")) 1).map
        fun r => r.node.truth) = some .truthUnknown) :=
  or_node_touch exGraph 3 (some (mkPat "src.ipv4" "1.2.3.4")) 1 (by decide) (by decide)

/-- C3: for a NOT node touched by a propagation call while its truth for
`ev` is still unresolved: an incoming child truth of True sets the node's
truth to False; an incoming False sets it to True; with any known incoming
truth the node never remains Unknown. -/
theorem not_node_touch (g : Graph) (nid : NodeId) (cp : Option Pattern) (ev : Int)
    (hop : (g nid).operator = "NOT")
    (hunres : (lazyReset (g nid) ev).truth = .truthUnknown) :
    (((touch g nid .truthTrue cp ev).map fun r => r.node.truth) = some .truthFalse)
    ∧
    (((touch g nid .truthFalse cp ev).map fun r => r.node.truth) = some .truthTrue)
    ∧
    (∀ ct, ct ≠ .truthUnknown → ∀ r, touch g nid ct cp ev = some r →
      r.node.truth ≠ .truthUnknown) := by
  have hop' : (lazyReset (g nid) ev).operator = "NOT" := by
    rw [lazyReset_operator]; exact hop
  have h1 : ((touch g nid .truthTrue cp ev).map fun r => r.node.truth) = some .truthFalse := by
    rw [touch_unres_eq g nid .truthTrue cp ev (by decide) hunres,
        evalOperator_not _ _ _ _ hop', if_pos rfl]
    simp [applyTruth_false]
  have h2 : ((touch g nid .truthFalse cp ev).map fun r => r.node.truth) = some .truthTrue := by
    rw [touch_unres_eq g nid .truthFalse cp ev (by decide) hunres,
        evalOperator_not _ _ _ _ hop',
        if_neg (by decide : ¬(Truth.truthFalse = Truth.truthTrue))]
    simp [applyTruth_true, substituteIndicator_truth]
  refine ⟨h1, h2, ?_⟩
  intro ct hct r hr
  cases ct with
  | truthUnknown => exact absurd rfl hct
  | truthTrue =>
    rw [hr] at h1
    simp only [Option.map_some', Option.some.injEq] at h1
    rw [h1]
    decide
  | truthFalse =>
    rw [hr] at h2
    simp only [Option.map_some', Option.some.injEq] at h2
    rw [h2]
    decide

/-- C3 witness: the NOT node 4 of `exGraph`, touched for event 1, resolves
False on an incoming True and True on an incoming False. -/
theorem not_node_touch_witness :
    (((touch exGraph 4 .truthTrue none 1).map fun r => r.node.truth) = some .truthFalse)
    ∧
    (((touch exGraph 4 .truthFalse none 1).map fun r => r.node.truth) = some .truthTrue) :=
  ⟨(not_node_touch exGraph 4 none 1 (by decide) (by decide)).1,
   (not_node_touch exGraph 4 none 1 (by decide) (by decide)).2.1⟩

/-- C9: a touched node with a non-empty operator that is none of OR, AND
and NOT is left Unknown: the call returns normally (no fatal path), writes
only the lazy reset of the node itself, emits no indicator and does not
recurse into the parents. -/
theorem unrecognised_operator_node (fuel : Nat) (g : Graph) (nid : NodeId) (ct : Truth)
    (cp : Option Pattern) (ev : Int)
    (hop0 : (g nid).operator ≠ "") (hop1 : (g nid).operator ≠ "OR")
    (hop2 : (g nid).operator ≠ "AND") (hop3 : (g nid).operator ≠ "NOT")
    (hct : ct ≠ .truthUnknown)
    (hunres : (lazyReset (g nid) ev).truth = .truthUnknown) :
    setTruth (fuel + 1) g nid ct cp ev =
      some (updateNode g nid (lazyReset (g nid) ev), [], (g nid).siblingNots)
    ∧
    (updateNode g nid (lazyReset (g nid) ev) nid).truth = .truthUnknown := by
  have heval : evalOperator (updateNode g nid (lazyReset (g nid) ev))
      (lazyReset (g nid) ev) ct cp = some (.truthUnknown, (lazyReset (g nid) ev).pattern) := by
    refine evalOperator_unrecognised _ _ _ _ ?_ ?_ ?_ ?_ <;> rw [lazyReset_operator] <;>
      assumption
  have htouch : touch g nid ct cp ev =
      some { node := lazyReset (g nid) ev, emitted := [],
             nots := (g nid).siblingNots, recurse := false } := by
    rw [touch_unres_eq g nid ct cp ev hct hunres, heval]
    simp [applyTruth_unknown]
  constructor
  · simp only [setTruth, htouch]
    rfl
  · rw [updateNode_self]
    exact hunres

/-- C9 witness: node 5 of `exGraph` carries the unrecognised operator
"XOR"; firing it for event 1 returns normally with no indicator, only its
(empty) sibling-negation list, and leaves it Unknown. -/
theorem unrecognised_operator_node_witness :
    setTruth 4 exGraph 5 .truthTrue none 1 =
      some (updateNode exGraph 5 (lazyReset (exGraph 5) 1), [], (exGraph 5).siblingNots)
    ∧
    (updateNode exGraph 5 (lazyReset (exGraph 5) 1) 5).truth = .truthUnknown :=
  unrecognised_operator_node 3 exGraph 5 .truthTrue none 1 (by decide) (by decide)
    (by decide) (by decide) (by decide) (by decide)

theorem setTruth_succ_of_touch_none (fuel : Nat) (g : Graph) (nid : NodeId) (ct : Truth)
    (cp : Option Pattern) (ev : Int) (htr : touch g nid ct cp ev = none) :
    setTruth (fuel + 1) g nid ct cp ev = none := by
  simp [setTruth, htr]

theorem setTruth_succ_norec (fuel : Nat) (g : Graph) (nid : NodeId) (ct : Truth)
    (cp : Option Pattern) (ev : Int) (r : TouchResult)
    (htr : touch g nid ct cp ev = some r) (hr : r.recurse = false) :
    setTruth (fuel + 1) g nid ct cp ev =
      some (updateNode g nid r.node, r.emitted, r.nots) := by
  simp [setTruth, htr, hr]

theorem setTruth_succ_recurse (fuel : Nat) (g : Graph) (nid : NodeId) (ct : Truth)
    (cp : Option Pattern) (ev : Int) (r : TouchResult)
    (htr : touch g nid ct cp ev = some r) (hr : r.recurse = true)
    (g2 : Graph) (inds2 : List Indicator) (nots2 : List Int)
    (hp : setTruthOnParents fuel (updateNode g nid r.node) r.node.parents
      r.node.truth r.node.pattern ev = some (g2, inds2, nots2)) :
    setTruth (fuel + 1) g nid ct cp ev =
      some (g2, r.emitted ++ inds2, r.nots ++ nots2) := by
  simp [setTruth, htr, hr, hp]

theorem setTruth_succ_recurse_none (fuel : Nat) (g : Graph) (nid : NodeId) (ct : Truth)
    (cp : Option Pattern) (ev : Int) (r : TouchResult)
    (htr : touch g nid ct cp ev = some r) (hr : r.recurse = true)
    (hp : setTruthOnParents fuel (updateNode g nid r.node) r.node.parents
      r.node.truth r.node.pattern ev = none) :
    setTruth (fuel + 1) g nid ct cp ev = none := by
  simp [setTruth, htr, hr, hp]

theorem touch_nots (g : Graph) (nid : NodeId) (ct : Truth) (cp : Option Pattern)
    (ev : Int) (hct : ct ≠ .truthUnknown) (r : TouchResult)
    (h : touch g nid ct cp ev = some r) : r.nots = (g nid).siblingNots := by
  by_cases hres : (lazyReset (g nid) ev).truth = .truthUnknown
  · rw [touch_unres_eq g nid ct cp ev hct hres] at h
    rcases he : evalOperator (updateNode g nid (lazyReset (g nid) ev))
        (lazyReset (g nid) ev) ct cp with _ | p
    · rw [he] at h; cases h
    · rw [he] at h
      simp only [Option.map_some', Option.some.injEq] at h
      rw [← h]
      rcases p with ⟨st, np⟩
      cases st with
      | truthUnknown => rw [applyTruth_unknown]; simp
      | truthTrue => rw [applyTruth_true]; simp
      | truthFalse => rw [applyTruth_false]; simp
  · rw [touch_resolved_eq g nid ct cp ev hct hres] at h
    simp only [Option.some.injEq] at h
    rw [← h]

theorem setTruth_resolved_eq (fuel : Nat) (g : Graph) (nid : NodeId) (ct : Truth)
    (cp : Option Pattern) (ev : Int) (hct : ct ≠ .truthUnknown)
    (heq : (g nid).eventID = ev) (hres : (g nid).truth ≠ .truthUnknown) :
    setTruth (fuel + 1) g nid ct cp ev =
      some (updateNode g nid (g nid), [], (g nid).siblingNots) := by
  have hlr : lazyReset (g nid) ev = g nid := lazyReset_of_eq _ _ heq
  have hres' : (lazyReset (g nid) ev).truth ≠ .truthUnknown := by rw [hlr]; exact hres
  have htouch := touch_resolved_eq g nid ct cp ev hct hres'
  rw [hlr] at htouch
  simp only [setTruth, htouch]
  rfl

/-- C4: monotonic resolution and at-most-once emission: a node whose truth
is already resolved (True or False) for event `ev` is not changed by a
further Fire or ResolveNot touch for the same event — the arena is
pointwise unchanged, no indicator is emitted again, and only the node's
SiblingNots come back. -/
theorem resolved_node_monotonic (fuel : Nat) (g : Graph) (nid : NodeId) (ct : Truth)
    (cp : Option Pattern) (ev : Int)
    (heq : (g nid).eventID = ev) (hres : (g nid).truth ≠ .truthUnknown)
    (hct : ct ≠ .truthUnknown) :
    setTruth (fuel + 1) g nid ct cp ev =
      some (updateNode g nid (g nid), [], (g nid).siblingNots)
    ∧ ∀ j, updateNode g nid (g nid) j = g j := by
  refine ⟨setTruth_resolved_eq fuel g nid ct cp ev hct heq hres, ?_⟩
  intro j
  unfold updateNode
  split
  · next h => rw [h]
  · rfl

/-- C4 witness: node 9 of `exGraph` is already resolved True for event 3
with an indicator template; firing it again for event 3 leaves the arena
pointwise unchanged (checked at the node itself and at the root), emits
nothing, and returns only its SiblingNots. -/
theorem resolved_node_monotonic_witness :
    (setTruth 4 exGraph 9 .truthTrue none 3 =
      some (updateNode exGraph 9 (exGraph 9), [], (exGraph 9).siblingNots))
    ∧ updateNode exGraph 9 (exGraph 9) 9 = exGraph 9
    ∧ updateNode exGraph 9 (exGraph 9) 0 = exGraph 0 := by
  have h := resolved_node_monotonic 3 exGraph 9 .truthTrue none 3 (by decide) (by decide)
    (by decide)
  exact ⟨h.1, h.2 9, h.2 0⟩

/-- C5: lazy per-event reset: a call on a node whose stored event
generation differs from `ev` behaves exactly as the same call on the arena
in which that node has already been replaced by its reset (truth Unknown,
generation `ev`, operator pattern dropped) — the reset happens before any
evaluation, resolution or emission logic. -/
theorem lazy_reset_first (fuel : Nat) (g : Graph) (nid : NodeId) (ct : Truth)
    (cp : Option Pattern) (ev : Int)
    (hstale : (g nid).eventID ≠ ev) (hct : ct ≠ .truthUnknown) :
    setTruth fuel g nid ct cp ev =
      setTruth fuel (updateNode g nid (lazyReset (g nid) ev)) nid ct cp ev
    ∧ (updateNode g nid (lazyReset (g nid) ev) nid).truth = .truthUnknown
    ∧ (updateNode g nid (lazyReset (g nid) ev) nid).eventID = ev := by
  set g2 := updateNode g nid (lazyReset (g nid) ev) with hg2
  have hg2nid : g2 nid = lazyReset (g nid) ev := updateNode_self _ _ _
  have hlr2 : lazyReset (g2 nid) ev = lazyReset (g nid) ev := by
    rw [hg2nid, lazyReset_of_eq _ _ (lazyReset_eventID _ _)]
  have hupd : ∀ m, updateNode g2 nid m = updateNode g nid m := by
    intro m
    funext j
    by_cases h : j = nid <;> simp [hg2, updateNode, h]
  have htouch : touch g2 nid ct cp ev = touch g nid ct cp ev := by
    unfold touch
    rw [if_neg hct, if_neg hct, hlr2]
    simp only [hupd]
  have htruth : (lazyReset (g nid) ev).truth = .truthUnknown := by
    rw [lazyReset_truth, if_neg hstale]
  refine ⟨?_, by rw [hg2nid]; exact htruth, by rw [hg2nid]; exact lazyReset_eventID _ _⟩
  cases fuel with
  | zero => rfl
  | succ f =>
    simp only [setTruth, htouch, hupd]

/-- C5 witness: node 9 of `exGraph` was resolved True for event 3; a call
for event 4 is the same call as on the arena where node 9 has been reset
to Unknown with generation 4. -/
theorem lazy_reset_first_witness :
    setTruth 4 exGraph 9 .truthTrue none 4 =
      setTruth 4 (updateNode exGraph 9 (lazyReset (exGraph 9) 4)) 9 .truthTrue none 4
    ∧ (updateNode exGraph 9 (lazyReset (exGraph 9) 4) 9).truth = .truthUnknown
    ∧ (updateNode exGraph 9 (lazyReset (exGraph 9) 4) 9).eventID = 4 :=
  lazy_reset_first 4 exGraph 9 .truthTrue none 4 (by decide) (by decide)

/-- C6: sibling-negation discovery is touch-based: every Fire or
ResolveNot call returns the touched node's configured SiblingNots at the
head of the discovered-negations list whether or not its truth changed;
in particular a repeated call on a node already resolved for the event
returns exactly the SiblingNots again while emitting no indicator. -/
theorem sibling_nots_touch_based (fuel : Nat) (g : Graph) (nid : NodeId) (ct : Truth)
    (cp : Option Pattern) (ev : Int) (hct : ct ≠ .truthUnknown)
    (g' : Graph) (inds : List Indicator) (nots : List Int)
    (h : setTruth (fuel + 1) g nid ct cp ev = some (g', inds, nots)) :
    (∃ rest, nots = (g nid).siblingNots ++ rest)
    ∧ ((g nid).eventID = ev → (g nid).truth ≠ .truthUnknown →
        nots = (g nid).siblingNots ∧ inds = []) := by
  constructor
  · rcases htr : touch g nid ct cp ev with _ | r
    · rw [setTruth_succ_of_touch_none fuel g nid ct cp ev htr] at h
      cases h
    · have hn := touch_nots g nid ct cp ev hct r htr
      by_cases hr : r.recurse = true
      · rcases hp : setTruthOnParents fuel (updateNode g nid r.node) r.node.parents
            r.node.truth r.node.pattern ev with _ | ⟨g2, inds2, nots2⟩
        · rw [setTruth_succ_recurse_none fuel g nid ct cp ev r htr hr hp] at h
          cases h
        · rw [setTruth_succ_recurse fuel g nid ct cp ev r htr hr g2 inds2 nots2 hp] at h
          simp only [Option.some.injEq, Prod.mk.injEq] at h
          exact ⟨nots2, by rw [← h.2.2, hn]⟩
      · have hr' : r.recurse = false := by simpa using hr
        rw [setTruth_succ_norec fuel g nid ct cp ev r htr hr'] at h
        simp only [Option.some.injEq, Prod.mk.injEq] at h
        exact ⟨[], by rw [← h.2.2, hn, List.append_nil]⟩
  · intro heq hres
    have he := setTruth_resolved_eq fuel g nid ct cp ev hct heq hres
    rw [he] at h
    simp only [Option.some.injEq, Prod.mk.injEq] at h
    exact ⟨h.2.2.symm, h.2.1.symm⟩

/-- C6 witness: firing the already-resolved node 9 of `exGraph` again for
event 3 yields exactly its SiblingNots `[4, 5]` in the output once more,
with no indicator emitted. -/
theorem sibling_nots_touch_based_witness :
    ([4, 5] : List Int) = (exGraph 9).siblingNots ∧ ([] : List Indicator) = [] := by
  have h := sibling_nots_touch_based 3 exGraph 9 .truthTrue none 3 (by decide)
    (updateNode exGraph 9 (exGraph 9)) [] [4, 5] (by rfl)
  exact h.2 (by decide) (by decide)

theorem secondPart_eq (l : List String) :
    secondPart l = if 2 ≤ l.length then l.getD 1 "" else l.getD 0 "" := by
  match l with
  | [] => rfl
  | [a] => rfl
  | a :: b :: t =>
    rw [if_pos (show 2 ≤ (a :: b :: t).length from Nat.le_add_left 2 t.length)]
    rfl

theorem substituteIndicator_subst (n : IndicatorNode) (ind : Indicator) (pat : Pattern)
    (hi : n.indicator = some ind) (hp : n.pattern = some pat)
    (hu : n.useOriginalIndicatorValue = false) :
    substituteIndicator n =
      { n with indicator := some { ind with
          type := if 2 ≤ (pat.type.splitOn ".").length
                  then (pat.type.splitOn ".").getD 1 ""
                  else (pat.type.splitOn ".").getD 0 "",
          value := pat.value } } := by
  unfold substituteIndicator
  rw [hi, hp]
  simp [hu, secondPart_eq]

theorem substituteIndicator_useOrig (n : IndicatorNode)
    (hu : n.useOriginalIndicatorValue = true) :
    substituteIndicator n = n := by
  unfold substituteIndicator
  cases hi : n.indicator <;> cases hp : n.pattern <;> simp [hu]

theorem substituteIndicator_noPattern (n : IndicatorNode) (hp : n.pattern = none) :
    substituteIndicator n = n := by
  unfold substituteIndicator
  rw [hp]
  cases hi : n.indicator <;> simp

theorem applyTruth_emitted_subst (n : IndicatorNode) (np : Option Pattern)
    (ind : Indicator) (pat : Pattern) (hi : n.indicator = some ind)
    (hpat : np = some pat) (hu : n.useOriginalIndicatorValue = false) :
    (applyTruth n .truthTrue np).emitted =
      [{ ind with
          type := if 2 ≤ (pat.type.splitOn ".").length
                  then (pat.type.splitOn ".").getD 1 ""
                  else (pat.type.splitOn ".").getD 0 "",
          value := pat.value }] := by
  rw [applyTruth_true]
  rw [substituteIndicator_subst { n with truth := .truthTrue, pattern := np } ind pat hi hpat hu]
  rfl

theorem applyTruth_emitted_orig (n : IndicatorNode) (np : Option Pattern)
    (ind : Indicator) (hi : n.indicator = some ind)
    (hu : n.useOriginalIndicatorValue = true) :
    (applyTruth n .truthTrue np).emitted = [ind] := by
  rw [applyTruth_true]
  rw [substituteIndicator_useOrig { n with truth := .truthTrue, pattern := np } hu]
  simp [hi]

theorem applyTruth_emitted_nopat (n : IndicatorNode) (np : Option Pattern)
    (ind : Indicator) (hi : n.indicator = some ind) (hnp : np = none) :
    (applyTruth n .truthTrue np).emitted = [ind] := by
  rw [applyTruth_true]
  rw [substituteIndicator_noPattern { n with truth := .truthTrue, pattern := np } hnp]
  simp [hi]

/-- C7: indicator value substitution: when a touched node resolves True
carrying an indicator template: with a pattern present and
`useOriginalIndicatorValue` false, the emitted indicator's Type is the
second dot-separated component of the pattern's Type when it has two or
more components and the only component (the whole Type) when it has one,
and its Value is the pattern's Value; with `useOriginalIndicatorValue`
true the template's own Type/Value are emitted unmodified; with no
pattern at all the template is still emitted with the values it already
holds. -/
theorem indicator_value_substitution (g : Graph) (nid : NodeId) (ct : Truth)
    (cp : Option Pattern) (ev : Int) (np : Option Pattern) (ind : Indicator)
    (hct : ct ≠ .truthUnknown)
    (hunres : (lazyReset (g nid) ev).truth = .truthUnknown)
    (heval : evalOperator (updateNode g nid (lazyReset (g nid) ev))
      (lazyReset (g nid) ev) ct cp = some (.truthTrue, np))
    (hind : (g nid).indicator = some ind) :
    (∀ pat, np = some pat → (g nid).useOriginalIndicatorValue = false →
      ((touch g nid ct cp ev).map fun r => r.emitted) =
        some [{ ind with
          type := if 2 ≤ (pat.type.splitOn ".").length
                  then (pat.type.splitOn ".").getD 1 ""
                  else (pat.type.splitOn ".").getD 0 "",
          value := pat.value }])
    ∧ ((g nid).useOriginalIndicatorValue = true →
      ((touch g nid ct cp ev).map fun r => r.emitted) = some [ind])
    ∧ (np = none →
      ((touch g nid ct cp ev).map fun r => r.emitted) = some [ind]) := by
  have htouch : touch g nid ct cp ev =
      some (applyTruth (lazyReset (g nid) ev) .truthTrue np) := by
    rw [touch_unres_eq g nid ct cp ev hct hunres, heval]
    rfl
  have hind' : (lazyReset (g nid) ev).indicator = some ind := by
    rw [lazyReset_indicator]; exact hind
  refine ⟨?_, ?_, ?_⟩
  · intro pat hpat hu
    have hu' : (lazyReset (g nid) ev).useOriginalIndicatorValue = false := by
      rw [lazyReset_useOriginal]; exact hu
    rw [htouch]
    simp only [Option.map_some', Option.some.injEq]
    exact applyTruth_emitted_subst _ np ind pat hind' hpat hu'
  · intro hu
    have hu' : (lazyReset (g nid) ev).useOriginalIndicatorValue = true := by
      rw [lazyReset_useOriginal]; exact hu
    rw [htouch]
    simp only [Option.map_some', Option.some.injEq]
    exact applyTruth_emitted_orig _ np ind hind' hu'
  · intro hnp
    rw [htouch]
    simp only [Option.map_some', Option.some.injEq]
    exact applyTruth_emitted_nopat _ np ind hind' hnp

/-- C7 witness: firing the indicator-bearing leaves of `exGraph` for
event 1: node 6 (pattern `src.ipv4`, substitution on) emits Type `ipv4` —
the second dot component — and the pattern's Value; node 7
(`useOriginalIndicatorValue`) emits its own Type/Value unmodified; node 8
(no pattern) emits the values it already holds. -/
theorem indicator_value_substitution_witness :
    (((touch exGraph 6 .truthTrue none 1).map fun r => r.emitted) =
      some [{ id := "ind6",
              type := if 2 ≤ ((mkPat "src.ipv4" "1.2.3.4").type.splitOn ".").length
                      then ((mkPat "src.ipv4" "1.2.3.4").type.splitOn ".").getD 1 ""
                      else ((mkPat "src.ipv4" "1.2.3.4").type.splitOn ".").getD 0 "",
              value := (mkPat "src.ipv4" "1.2.3.4").value }])
    ∧ (((touch exGraph 6 .truthTrue none 1).map fun r =>
          r.emitted.map fun i => (i.id, i.value)) = some [("ind6", "1.2.3.4")])
    ∧ (((touch exGraph 7 .truthTrue none 1).map fun r => r.emitted) =
      some [{ id := "ind7", type := "t7", value := "v7" }])
    ∧ (((touch exGraph 8 .truthTrue none 1).map fun r => r.emitted) =
      some [{ id := "ind8", type := "t8", value := "v8" }]) := by
  have h6 := (indicator_value_substitution exGraph 6 .truthTrue none 1
      (some (mkPat "src.ipv4" "1.2.3.4")) { id := "ind6", type := "t6", value := "v6" }
      (by decide) (by decide) (by decide) (by decide)).1
      (mkPat "src.ipv4" "1.2.3.4") rfl (by decide)
  have h7 := (indicator_value_substitution exGraph 7 .truthTrue none 1
      (some (mkPat "src.ipv4" "1.2.3.4")) { id := "ind7", type := "t7", value := "v7" }
      (by decide) (by decide) (by decide) (by decide)).2.1 (by decide)
  have h8 := (indicator_value_substitution exGraph 8 .truthTrue none 1
      none { id := "ind8", type := "t8", value := "v8" }
      (by decide) (by decide) (by decide) (by decide)).2.2 rfl
  refine ⟨h6, ?_, h7, h8⟩
  rcases htr : touch exGraph 6 .truthTrue none 1 with _ | r
  · rw [htr] at h6; cases h6
  · rw [htr] at h6
    simp only [Option.map_some', Option.some.injEq] at h6
    simp only [Option.map_some', Option.some.injEq, h6]
    rfl

/-- C10: the lazy per-event reset drops the node's propagated pattern only
when the node has a non-empty operator, while a leaf keeps its structural
pattern; observably, a stale OR node resolving True in the new event
adopts the incoming child's pattern (never a pattern inherited during an
earlier event) and a stale leaf still carries its own pattern after the
touch. -/
theorem reset_pattern_scope (g : Graph) (nid : NodeId) (ct : Truth) (cp : Option Pattern)
    (ev : Int) (hstale : (g nid).eventID ≠ ev) (hct : ct ≠ .truthUnknown) :
    ((g nid).operator ≠ "" → (lazyReset (g nid) ev).pattern = none)
    ∧ ((g nid).operator = "" → (lazyReset (g nid) ev).pattern = (g nid).pattern)
    ∧ ((g nid).operator = "OR" →
        ((touch g nid .truthTrue cp ev).map fun r => r.node.pattern) = some cp)
    ∧ ((g nid).operator = "" →
        ((touch g nid ct cp ev).map fun r => r.node.pattern) = some ((g nid).pattern)) := by
  have hunres : (lazyReset (g nid) ev).truth = .truthUnknown := by
    rw [lazyReset_truth, if_neg hstale]
  have hp1 : ∀ hop : (g nid).operator ≠ "", (lazyReset (g nid) ev).pattern = none := by
    intro hop
    rw [lazyReset_pattern, if_neg hstale, if_neg hop]
  have hp2 : ∀ _ : (g nid).operator = "", (lazyReset (g nid) ev).pattern = (g nid).pattern := by
    intro hop
    rw [lazyReset_pattern, if_neg hstale, if_pos hop]
  refine ⟨hp1, hp2, ?_, ?_⟩
  · intro hop
    have hop' : (lazyReset (g nid) ev).operator = "OR" := by
      rw [lazyReset_operator]; exact hop
    rw [touch_unres_eq g nid .truthTrue cp ev (by decide) hunres,
        evalOperator_or _ _ _ _ hop', if_pos rfl,
        if_pos (hp1 (by rw [hop]; decide))]
    simp [applyTruth_true, substituteIndicator_pattern]
  · intro hop
    have hop' : (lazyReset (g nid) ev).operator = "" := by
      rw [lazyReset_operator]; exact hop
    rw [touch_unres_eq g nid ct cp ev hct hunres, evalOperator_leaf _ _ _ _ hop']
    cases ct with
    | truthUnknown => exact absurd rfl hct
    | truthTrue =>
      simp only [Option.map_some']
      rw [applyTruth_true]
      simp [substituteIndicator_pattern, hp2 hop]
    | truthFalse =>
      simp only [Option.map_some']
      rw [applyTruth_false]
      simp [hp2 hop]

/-- C10 witness: for event 1 (all of `exGraph` stores generation 0): the
OR node 3 has its pattern cleared by the reset and adopts the incoming
`a.b` pattern when it resolves True, while the leaf node 1 keeps its own
structural pattern through the reset and the touch. -/
theorem reset_pattern_scope_witness :
    ((lazyReset (exGraph 3) 1).pattern = none)
    ∧ (((touch exGraph 3 .truthTrue (some (mkPat "a.b" "v")) 1).map
        fun r => r.node.pattern) = some (some (mkPat "a.b" "v")))
    ∧ ((lazyReset (exGraph 1) 1).pattern = (exGraph 1).pattern)
    ∧ (((touch exGraph 1 .truthTrue none 1).map fun r => r.node.pattern) =
        some ((exGraph 1).pattern)) := by
  have h3 := reset_pattern_scope exGraph 3 .truthTrue (some (mkPat "a.b" "v")) 1
    (by decide) (by decide)
  have h1 := reset_pattern_scope exGraph 1 .truthTrue none 1 (by decide) (by decide)
  exact ⟨h3.1 (by decide), h3.2.2.1 (by decide), h1.2.1 (by decide), h1.2.2.2 (by decide)⟩

@[simp]
theorem lazyReset_id (n : IndicatorNode) (ev : Int) :
    (lazyReset n ev).id = n.id := by
  unfold lazyReset; split <;> rfl

theorem substituteIndicator_id (n : IndicatorNode) :
    (substituteIndicator n).id = n.id := by
  unfold substituteIndicator
  cases hi : n.indicator <;> cases hp : n.pattern <;> try rfl
  all_goals cases hu : n.useOriginalIndicatorValue <;> simp [hu, hp]

theorem structEq_refl (a : IndicatorNode) : StructEq a a :=
  ⟨rfl, rfl, rfl, rfl, rfl, rfl⟩

theorem structEq_trans {a b c : IndicatorNode} (h1 : StructEq a b) (h2 : StructEq b c) :
    StructEq a c := by
  obtain ⟨x1, x2, x3, x4, x5, x6⟩ := h1
  obtain ⟨y1, y2, y3, y4, y5, y6⟩ := h2
  exact ⟨x1.trans y1, x2.trans y2, x3.trans y3, x4.trans y4, x5.trans y5, x6.trans y6⟩

theorem structEq_lazyReset (n : IndicatorNode) (ev : Int) :
    StructEq (lazyReset n ev) n := by
  refine ⟨?_, ?_, ?_, ?_, ?_, ?_⟩ <;> simp

theorem structEq_substituteIndicator (n : IndicatorNode) :
    StructEq (substituteIndicator n) n :=
  ⟨substituteIndicator_operator n, substituteIndicator_children n,
   substituteIndicator_parents n, substituteIndicator_siblingNots n,
   substituteIndicator_useOriginal n, substituteIndicator_id n⟩

theorem structEq_applyTruth (n : IndicatorNode) (st : Truth) (np : Option Pattern) :
    StructEq (applyTruth n st np).node n := by
  cases st with
  | truthUnknown => rw [applyTruth_unknown]; exact structEq_refl n
  | truthTrue =>
    rw [applyTruth_true]
    exact structEq_trans (structEq_substituteIndicator _)
      ⟨rfl, rfl, rfl, rfl, rfl, rfl⟩
  | truthFalse =>
    rw [applyTruth_false]
    exact ⟨rfl, rfl, rfl, rfl, rfl, rfl⟩

theorem touch_structEq (g : Graph) (nid : NodeId) (ct : Truth) (cp : Option Pattern)
    (ev : Int) (r : TouchResult) (h : touch g nid ct cp ev = some r) :
    StructEq r.node (g nid) := by
  by_cases hct : ct = .truthUnknown
  · have hu : touch g nid ct cp ev =
        some { node := g nid, emitted := [], nots := [], recurse := false } := by
      rw [hct]; rfl
    rw [hu] at h
    rw [← Option.some.inj h]
    exact structEq_refl _
  · by_cases hres : (lazyReset (g nid) ev).truth = .truthUnknown
    · rw [touch_unres_eq g nid ct cp ev hct hres] at h
      rcases he : evalOperator (updateNode g nid (lazyReset (g nid) ev))
          (lazyReset (g nid) ev) ct cp with _ | ⟨st, np⟩
      · rw [he] at h; cases h
      · rw [he] at h
        simp only [Option.map_some', Option.some.injEq] at h
        rw [← h]
        exact structEq_trans (structEq_applyTruth _ _ _) (structEq_lazyReset _ _)
    · rw [touch_resolved_eq g nid ct cp ev hct hres] at h
      rw [← Option.some.inj h]
      exact structEq_lazyReset _ _

theorem graphStructEq_refl (g : Graph) : GraphStructEq g g :=
  fun j => structEq_refl (g j)

theorem graphStructEq_trans {a b c : Graph} (h1 : GraphStructEq a b)
    (h2 : GraphStructEq b c) : GraphStructEq a c :=
  fun j => structEq_trans (h1 j) (h2 j)

theorem graphStructEq_update (g : Graph) (nid : NodeId) (m : IndicatorNode)
    (hst : StructEq m (g nid)) : GraphStructEq (updateNode g nid m) g := by
  intro j
  unfold updateNode
  split
  · next hj => rw [hj]; exact hst
  · exact structEq_refl _

theorem setTruthOnParents_nil (fuel : Nat) (g : Graph) (t : Truth) (pat : Option Pattern)
    (ev : Int) : setTruthOnParents fuel g [] t pat ev = some (g, [], []) := by
  cases fuel <;> rfl

theorem setTruthOnParents_zero_cons (g : Graph) (p : NodeId) (rest : List NodeId)
    (t : Truth) (pat : Option Pattern) (ev : Int) :
    setTruthOnParents 0 g (p :: rest) t pat ev = none := rfl

theorem setTruthOnParents_cons_fst_none (fuel : Nat) (g : Graph) (p : NodeId)
    (rest : List NodeId) (t : Truth) (pat : Option Pattern) (ev : Int)
    (h : setTruth fuel g p t pat ev = none) :
    setTruthOnParents (fuel + 1) g (p :: rest) t pat ev = none := by
  simp [setTruthOnParents, h]

theorem setTruthOnParents_cons_snd_none (fuel : Nat) (g : Graph) (p : NodeId)
    (rest : List NodeId) (t : Truth) (pat : Option Pattern) (ev : Int)
    (g1 : Graph) (i1 : List Indicator) (n1 : List Int)
    (h1 : setTruth fuel g p t pat ev = some (g1, i1, n1))
    (h2 : setTruthOnParents fuel g1 rest t pat ev = none) :
    setTruthOnParents (fuel + 1) g (p :: rest) t pat ev = none := by
  simp [setTruthOnParents, h1, h2]

theorem setTruthOnParents_cons (fuel : Nat) (g : Graph) (p : NodeId)
    (rest : List NodeId) (t : Truth) (pat : Option Pattern) (ev : Int)
    (g1 g2 : Graph) (i1 i2 : List Indicator) (n1 n2 : List Int)
    (h1 : setTruth fuel g p t pat ev = some (g1, i1, n1))
    (h2 : setTruthOnParents fuel g1 rest t pat ev = some (g2, i2, n2)) :
    setTruthOnParents (fuel + 1) g (p :: rest) t pat ev =
      some (g2, i1 ++ i2, n1 ++ n2) := by
  simp [setTruthOnParents, h1, h2]

theorem setTruth_structPreserved (fuel : Nat) :
    (∀ g nid ct cp ev out, setTruth fuel g nid ct cp ev = some out →
      GraphStructEq out.1 g)
    ∧ (∀ g l t pat ev out, setTruthOnParents fuel g l t pat ev = some out →
      GraphStructEq out.1 g) := by
  induction fuel with
  | zero =>
    constructor
    · intro g nid ct cp ev out h
      simp [setTruth] at h
    · intro g l t pat ev out h
      cases l with
      | nil =>
        rw [setTruthOnParents_nil] at h
        rw [← Option.some.inj h]
        exact graphStructEq_refl g
      | cons p rest =>
        rw [setTruthOnParents_zero_cons] at h
        cases h
  | succ f ih =>
    constructor
    · intro g nid ct cp ev out h
      rcases htr : touch g nid ct cp ev with _ | r
      · rw [setTruth_succ_of_touch_none f g nid ct cp ev htr] at h
        cases h
      · have hst := touch_structEq g nid ct cp ev r htr
        by_cases hr : r.recurse = true
        · rcases hp : setTruthOnParents f (updateNode g nid r.node) r.node.parents
              r.node.truth r.node.pattern ev with _ | out2
          · rw [setTruth_succ_recurse_none f g nid ct cp ev r htr hr hp] at h
            cases h
          · rcases out2 with ⟨g2, i2, n2⟩
            rw [setTruth_succ_recurse f g nid ct cp ev r htr hr g2 i2 n2 hp] at h
            rw [← Option.some.inj h]
            exact graphStructEq_trans
              (ih.2 (updateNode g nid r.node) r.node.parents r.node.truth
                r.node.pattern ev (g2, i2, n2) hp)
              (graphStructEq_update g nid r.node hst)
        · have hr' : r.recurse = false := by simpa using hr
          rw [setTruth_succ_norec f g nid ct cp ev r htr hr'] at h
          rw [← Option.some.inj h]
          exact graphStructEq_update g nid r.node hst
    · intro g l t pat ev out h
      cases l with
      | nil =>
        rw [setTruthOnParents_nil] at h
        rw [← Option.some.inj h]
        exact graphStructEq_refl g
      | cons p rest =>
        rcases h1 : setTruth f g p t pat ev with _ | out1
        · rw [setTruthOnParents_cons_fst_none f g p rest t pat ev h1] at h
          cases h
        · rcases out1 with ⟨g1, i1, n1⟩
          rcases h2 : setTruthOnParents f g1 rest t pat ev with _ | out2
          · rw [setTruthOnParents_cons_snd_none f g p rest t pat ev g1 i1 n1 h1 h2] at h
            cases h
          · rcases out2 with ⟨g2, i2, n2⟩
            rw [setTruthOnParents_cons f g p rest t pat ev g1 g2 i1 i2 n1 n2 h1 h2] at h
            rw [← Option.some.inj h]
            exact graphStructEq_trans (ih.2 g1 rest t pat ev (g2, i2, n2) h2)
              (ih.1 g p t pat ev (g1, i1, n1) h1)

/-- C8 counterexample: the claimed frame is too strong.  Firing the
indicator-bearing leaf 6 of `exGraph` for event 1 overwrites the stored
indicator template in place: before the call the template's Value is
"v6", afterwards it is the pattern's "1.2.3.4". -/
theorem structural_immutability_cex :
    ((Fire 4 exGraph 6 1).map fun out => (out.1 6).indicator.map fun i => i.value) =
      some (some "1.2.3.4")
    ∧ (exGraph 6).indicator.map (fun i => i.value) = some "v6" :=
  ⟨rfl, rfl⟩

/-- C8 (amended): for every Fire or ResolveNot call the load-time
structural fields Operator, Children, Parents, SiblingNots,
useOriginalIndicatorValue and id of every node are unchanged; besides the
per-node truth and event generation, the call may however rewrite a
node's Pattern (cleared on reset, adopted on OR/AND resolution) and the
Type/Value of its Indicator template (during emission). -/
theorem structural_fields_preserved (fuel : Nat) (g : Graph) (nid : NodeId) (ct : Truth)
    (cp : Option Pattern) (ev : Int) (g' : Graph) (inds : List Indicator)
    (nots : List Int) (h : setTruth fuel g nid ct cp ev = some (g', inds, nots))
    (j : NodeId) :
    (g' j).operator = (g j).operator ∧ (g' j).children = (g j).children
    ∧ (g' j).parents = (g j).parents ∧ (g' j).siblingNots = (g j).siblingNots
    ∧ (g' j).useOriginalIndicatorValue = (g j).useOriginalIndicatorValue
    ∧ (g' j).id = (g j).id :=
  (setTruth_structPreserved fuel).1 g nid ct cp ev (g', inds, nots) h j

/-- C8 witness: resolving the NOT node 4 of `exGraph` for event 1 (it
resolves True) leaves the structural fields of node 4 itself and of the
root node 0 unchanged. -/
theorem structural_fields_preserved_witness :
    ((updateNode exGraph 4 { operator := "NOT", children := [1], parents := [], truth := Truth.truthTrue, eventID := 1 } 4).operator = (exGraph 4).operator
      ∧ (updateNode exGraph 4 { operator := "NOT", children := [1], parents := [], truth := Truth.truthTrue, eventID := 1 } 4).children = (exGraph 4).children
      ∧ (updateNode exGraph 4 { operator := "NOT", children := [1], parents := [], truth := Truth.truthTrue, eventID := 1 } 4).parents = (exGraph 4).parents
      ∧ (updateNode exGraph 4 { operator := "NOT", children := [1], parents := [], truth := Truth.truthTrue, eventID := 1 } 4).siblingNots = (exGraph 4).siblingNots
      ∧ (updateNode exGraph 4 { operator := "NOT", children := [1], parents := [], truth := Truth.truthTrue, eventID := 1 } 4).useOriginalIndicatorValue = (exGraph 4).useOriginalIndicatorValue
      ∧ (updateNode exGraph 4 { operator := "NOT", children := [1], parents := [], truth := Truth.truthTrue, eventID := 1 } 4).id = (exGraph 4).id)
    ∧ ((updateNode exGraph 4 { operator := "NOT", children := [1], parents := [], truth := Truth.truthTrue, eventID := 1 } 0).operator = (exGraph 0).operator
      ∧ (updateNode exGraph 4 { operator := "NOT", children := [1], parents := [], truth := Truth.truthTrue, eventID := 1 } 0).children = (exGraph 0).children
      ∧ (updateNode exGraph 4 { operator := "NOT", children := [1], parents := [], truth := Truth.truthTrue, eventID := 1 } 0).parents = (exGraph 0).parents
      ∧ (updateNode exGraph 4 { operator := "NOT", children := [1], parents := [], truth := Truth.truthTrue, eventID := 1 } 0).siblingNots = (exGraph 0).siblingNots
      ∧ (updateNode exGraph 4 { operator := "NOT", children := [1], parents := [], truth := Truth.truthTrue, eventID := 1 } 0).useOriginalIndicatorValue = (exGraph 0).useOriginalIndicatorValue
      ∧ (updateNode exGraph 4 { operator := "NOT", children := [1], parents := [], truth := Truth.truthTrue, eventID := 1 } 0).id = (exGraph 0).id) := by
  have h := structural_fields_preserved 2 exGraph 4 .truthFalse none 1
    (updateNode exGraph 4 { operator := "NOT", children := [1], parents := [], truth := Truth.truthTrue, eventID := 1 }) [] [] (by rfl)
  exact ⟨h 4, h 0⟩

end Indicators
